import Mathlib

/-!
Shallow embedding of the HDF5 Onion virtual file driver storage engine
(`src/H5FDonion.c`, `src/H5FDonion_priv.h`) and proofs about the embedded
operations.

Modelling conventions:

* C unsigned 64-bit arithmetic is modelled on `Nat`.  Subtraction uses the
  explicit wrap-around `u64sub` exactly where the C expression can underflow
  (the `page_gap_tail` / `page_readsize` / `page_n_used` computations of the
  read and write paths); all other arithmetic on the modelled paths stays far
  below `2 ^ 64`.
* `x & (table_size - 1)` is modelled as `x % table_size`; the hash-table size
  is always a power of two (initial size `2 ^ 10`, doubled on every resize),
  for which masking and remainder agree.  Page-size masks are handled the
  same way.
* Byte buffers are `List Nat` with values below 256; backing-file contents
  are byte lists (for the open paths) or finite byte maps (for the
  read/write session paths), unwritten positions reading as zero.
* The `magic` and `version` sanity tags of the in-memory structures are
  compile-time constants in the source, set once and checked for equality
  against the same constants on every modelled path; they are omitted from
  the Lean structures.  On-disk signature and version bytes are modelled
  byte-for-byte.
* Heap-allocation failure branches (`HDmalloc` returning `NULL`) are not
  modelled; allocation always succeeds in the model.
-/

namespace Onion

/-- The modulus `2 ^ 64` of C `uint64_t` arithmetic. -/
def U64MOD : Nat := 2 ^ 64

/-- C `uint64_t` subtraction `a - b` with wrap-around. -/
def u64sub (a b : Nat) : Nat := (a % U64MOD + (U64MOD - b % U64MOD)) % U64MOD

/-- Little-endian encoding of `n` on `k` bytes.  Models the
`UINT32ENCODE` / `UINT64ENCODE` macros.  Modelled from the spec
("All multi-byte integers little-endian"); the macro header
`H5Fprivate.h` is not under `src/`. -/
def leBytes : Nat → Nat → List Nat
  | 0, _ => []
  | k + 1, n => n % 256 :: leBytes k (n / 256)

/-- Little-endian value of the first `k` bytes of `bs`.  Models the
`UINT32DECODE` / `UINT64DECODE` macros (modelled from the spec, see
`leBytes`).  Bytes past the end of the list read as zero. -/
def leVal : Nat → List Nat → Nat
  | 0, _ => 0
  | _ + 1, [] => 0
  | k + 1, b :: bs => b + 256 * leVal k bs

/-- One Fletcher folding step, `(sum & 0xffff) + (sum >> 16)`. -/
def fold16 (x : Nat) : Nat := x % 65536 + x / 65536

/-- Running Fletcher sums over a word list, folding after every word and
canonicalising with the final double fold. -/
def fletcherWords : List Nat → Nat → Nat → Nat
  | [], s1, s2 => fold16 (fold16 s2) * 65536 + fold16 (fold16 s1)
  | w :: ws, s1, s2 =>
      let s1' := fold16 (s1 + w)
      fletcherWords ws s1' (fold16 (s2 + s1'))

/-- Big-endian 16-bit words of a byte buffer; an odd trailing byte becomes
the high byte of a final word. -/
def beWords : List Nat → List Nat
  | [] => []
  | [b] => [b % 256 * 256]
  | b0 :: b1 :: bs => (b0 % 256 * 256 + b1 % 256) :: beWords bs

/-- Modelled from the spec: `H5_checksum_fletcher32` (`H5checksum.c` is not
under `src/`): "Fletcher-32 over every byte of the encoded record except the
final trailing 4-byte checksum field".  Big-endian 16-bit words as in the
library routine; the library folds the running sums every 360 words and
twice at the end, which yields the same value as folding after every word
(both keep the sums congruent modulo 65535 and canonicalise the nonzero
values into `1 .. 65535` at the end). -/
def H5_checksum_fletcher32 (buf : List Nat) : Nat :=
  fletcherWords (beWords buf) 0 0

/-- Iteration core of `lowBit`; the fuel only bounds the halvings and is
never exhausted when it starts at `n` (a nonzero `n` halves to zero in at
most `n` steps). -/
def lowBitAux : Nat → Nat → Nat
  | 0, _ => 0
  | fuel + 1, n => if n % 2 = 1 ∨ n = 0 then 0 else lowBitAux fuel (n / 2) + 1

/-- The `for (log2 = 0; ((1 << log2) & page_size) == 0; log2++)` idiom of
the source: index of the lowest set bit.  The source runs it only on nonzero
validated powers of two; `lowBit 0 = 0` keeps the model total. -/
def lowBit (n : Nat) : Nat := lowBitAux n n

/-- Modelled from the spec: the `POWER_OF_TWO` macro (`H5private.h` is not
under `src/`): nonzero and no two bits set. -/
def POWER_OF_TWO (n : Nat) : Bool := decide (n &&& (n - 1) = 0) && decide (n ≠ 0)

/-- Models `struct H5FD__onion_index_entry`: one logical-page-to-physical-offset
mapping. -/
structure H5FD__onion_index_entry where
  logi_page : Nat
  phys_addr : Nat
deriving Repr, DecidableEq, Inhabited

/-- Models `struct H5FD__onion_archival_index`.  `n_entries` is the length of
`list`. -/
structure H5FD__onion_archival_index where
  page_size_log2 : Nat
  list : List H5FD__onion_index_entry
deriving Repr, DecidableEq, Inhabited

/-- The sorted-ascending check of `H5FD_onion_archival_index_is_valid`
(adjacent pairs strictly increasing in `logi_page`). -/
def strictlyAscending : List H5FD__onion_index_entry → Bool
  | [] => true
  | [_] => true
  | a :: b :: rest =>
      decide (a.logi_page < b.logi_page) && strictlyAscending (b :: rest)

/-- Models `H5FD_onion_archival_index_is_valid`.  The null-pointer, magic and
version checks always pass in the model; what remains is the strict
ascending order of the entry list. -/
def H5FD_onion_archival_index_is_valid
    (aix : H5FD__onion_archival_index) : Bool :=
  strictlyAscending aix.list

/-- Outcome of the binary-search loop of `H5FD_onion_archival_index_find`:
either an entry was found at the probe, or the loop exited with the final
values of `n`, `low` and `high`. -/
inductive AixSearch where
  | found (e : H5FD__onion_index_entry)
  | exit (n low high : Nat)
deriving Repr, DecidableEq

/-- The `while (range > 0)` loop of `H5FD_onion_archival_index_find`,
verbatim: probe `n = low + range / 2`; on a miss move `low` up or `high`
down (with the source's `n == high` / `n == low` guards) and recompute
`range = high - low`.  The structural fuel only bounds the iterations and
is never exhausted when it starts at `high - low + 1`: `high - low`
strictly decreases on every recursive call (on a right step
`n < high`, so the new range is `high - n - 1 < high - low`; on a left
step the new range is at most `(high - low) / 2 - 1`, or zero when
`n = low`), so the fuel always stays above the remaining range. -/
def aixFindLoop (l : List H5FD__onion_index_entry) (p : Nat) :
    Nat → Nat → Nat → Nat → AixSearch
  | 0, low, high, n => .exit n low high
  | fuel + 1, low, high, n =>
    if high - low > 0 then
      let x := l.getD (low + (high - low) / 2) default
      if x.logi_page = p then .found x
      else if x.logi_page < p then
        aixFindLoop l p fuel
          (if low + (high - low) / 2 = high then high
           else low + (high - low) / 2 + 1)
          high (low + (high - low) / 2)
      else
        aixFindLoop l p fuel low
          (if low + (high - low) / 2 = low then low
           else low + (high - low) / 2 - 1)
          (low + (high - low) / 2)
    else .exit n low high

/-- Models `H5FD_onion_archival_index_find`: out-of-range pre-empt, binary-search
loop, then the guarded single-element re-test
`(n != low || n != high) && list[low].logi_page == logi_page`. -/
def H5FD_onion_archival_index_find (aix : H5FD__onion_archival_index)
    (logi_page : Nat) : Option H5FD__onion_index_entry :=
  let n_entries := aix.list.length
  let high := n_entries - 1
  if n_entries = 0 ∨ logi_page > (aix.list.getD high default).logi_page
      ∨ logi_page < (aix.list.getD 0 default).logi_page then
    none
  else
    match aixFindLoop aix.list logi_page (high + 1) 0 high 0 with
    | .found e => some e
    | .exit n low high' =>
        if (n ≠ low ∨ n ≠ high')
            ∧ (aix.list.getD low default).logi_page = logi_page then
          some (aix.list.getD low default)
        else none

/-- The C bucket array `hash_chain_node **_hash_table` is modelled as a
finite map from bucket index to chain; absent indices are `NULL` (empty)
buckets, exactly as `HDcalloc` leaves them.  The map representation only
serves efficient evaluation; `bucket` and `setBucket` below are the array
subscript and the array store. -/
def HashTable := Batteries.RBMap Nat (List H5FD__onion_index_entry) compare

/-- Array subscript `table[i]`: the chain of bucket `i` (list head = chain head). -/
def bucket (t : HashTable) (i : Nat) : List H5FD__onion_index_entry :=
  (Batteries.RBMap.find? t i).getD []

/-- Array store `table[i] = v`. -/
def setBucket (t : HashTable) (i : Nat)
    (v : List H5FD__onion_index_entry) : HashTable :=
  Batteries.RBMap.insert t i v

/-- The all-`NULL` freshly-`calloc`ed bucket array. -/
def emptyTable : HashTable := Batteries.RBMap.empty

/-- Models `H5FD__onion_revision_index_t`: chained hash table of index entries;
the underscore of the C field names is dropped. -/
structure H5FD__onion_revision_index where
  page_size_log2 : Nat
  n_entries : Nat
  hash_table_size : Nat
  hash_table_size_log2 : Nat
  hash_table_n_keys_populated : Nat
  hash_table : HashTable

/-- Models `H5FD_onion_revision_index_init`: reject a zero or non-power-of-two page
size, then allocate `2 ^ H5FD__ONION_REVISION_INDEX_STARTING_SIZE_LOG2`
(that is, `2 ^ 10`) empty buckets. -/
def H5FD_onion_revision_index_init (page_size : Nat) :
    Option H5FD__onion_revision_index :=
  if page_size = 0 then none
  else if ¬ POWER_OF_TWO page_size then none
  else some
    { page_size_log2 := lowBit page_size
      n_entries := 0
      hash_table_size := 2 ^ 10
      hash_table_size_log2 := 10
      hash_table_n_keys_populated := 0
      hash_table := emptyTable }

/-- One chain node of the resize loop: the node from old bucket `i`
re-hashes to `key = logi_page & (new_size - 1)`.  A node landing on an
empty new bucket is installed at `new_table[key]` and counted; on a
collision the source prepends the node to `new_table[i]` — the *old*
bucket index — which is where the model faithfully puts it as well. -/
def resizeNode (new_size i : Nat) (acc : HashTable × Nat)
    (node : H5FD__onion_index_entry) : HashTable × Nat :=
  let key := node.logi_page % new_size
  if (bucket acc.1 key).isEmpty then
    (setBucket acc.1 key [node], acc.2 + 1)
  else
    (setBucket acc.1 i (node :: bucket acc.1 i), acc.2)

/-- The bucket sweep of `H5FD__onion_revision_index_resize`.  The C source
walks old bucket indices `0 .. old_size - 1` in ascending order, draining
each chain head-first; empty buckets contribute nothing.  The model folds
over the nonempty buckets in ascending index order (the order
`Batteries.RBMap.toList` delivers), which visits exactly the same nodes in
exactly the same order.  The accumulator is matched strictly so evaluation
stays shallow. -/
def resizeBuckets (new_size : Nat) :
    List (Nat × List H5FD__onion_index_entry) → HashTable → Nat →
    HashTable × Nat
  | [], t, c => (t, c)
  | (i, chain) :: rest, t, c =>
      match chain.foldl (resizeNode new_size i) (t, c) with
      | (t', c') => resizeBuckets new_size rest t' c'

/-- Models `H5FD__onion_revision_index_resize`: double the table, re-hash every
chain node with the new mask (see `resizeNode` for the collision slip),
recount the populated buckets. -/
def H5FD__onion_revision_index_resize (rix : H5FD__onion_revision_index) :
    H5FD__onion_revision_index :=
  let new_size_log2 := rix.hash_table_size_log2 + 1
  let new_size := 2 ^ new_size_log2
  let res := resizeBuckets new_size (Batteries.RBMap.toList rix.hash_table)
    emptyTable 0
  { rix with
      hash_table_size := new_size
      hash_table_size_log2 := new_size_log2
      hash_table_n_keys_populated := res.2
      hash_table := res.1 }

/-- Replace the first chain node whose `logi_page` is `p` with `e`
(the in-place `HDmemcpy` of `H5FD_onion_revision_index_insert`). -/
def replaceFirst : List H5FD__onion_index_entry → Nat →
    H5FD__onion_index_entry → List H5FD__onion_index_entry
  | [], _, _ => []
  | x :: xs, p, e =>
      if x.logi_page = p then e :: xs else x :: replaceFirst xs p e

/-- Models `H5FD_onion_revision_index_insert`: resize when
`n_entries >= 2 * size` or `populated >= size / 2`; hash; an empty bucket
receives the entry and bumps the populated count; otherwise the chain is
walked — a node with the same page requires a matching `phys_addr`
(mismatch is a hard error, `none`) and is overwritten in place, and with no
matching node the entry is appended at the chain tail. -/
def H5FD_onion_revision_index_insert (rix0 : H5FD__onion_revision_index)
    (entry : H5FD__onion_index_entry) : Option H5FD__onion_revision_index :=
  let rix :=
    if rix0.n_entries ≥ rix0.hash_table_size * 2
        ∨ rix0.hash_table_n_keys_populated ≥ rix0.hash_table_size / 2 then
      H5FD__onion_revision_index_resize rix0
    else rix0
  let key := entry.logi_page % rix.hash_table_size
  let chain := bucket rix.hash_table key
  if chain.isEmpty then
    some { rix with
            hash_table := setBucket rix.hash_table key [entry]
            hash_table_n_keys_populated := rix.hash_table_n_keys_populated + 1
            n_entries := rix.n_entries + 1 }
  else
    match chain.find? (fun node => node.logi_page = entry.logi_page) with
    | some node =>
        if node.phys_addr ≠ entry.phys_addr then none
        else some { rix with
            hash_table :=
              setBucket rix.hash_table key
                (replaceFirst chain entry.logi_page entry) }
    | none =>
        some { rix with
                hash_table := setBucket rix.hash_table key (chain ++ [entry])
                n_entries := rix.n_entries + 1 }

/-- Models `H5FD_onion_revision_index_find`: hash, walk the chain, return the first
node with the requested page. -/
def H5FD_onion_revision_index_find (rix : H5FD__onion_revision_index)
    (logi_page : Nat) : Option H5FD__onion_index_entry :=
  (bucket rix.hash_table (logi_page % rix.hash_table_size)).find?
    (fun node => node.logi_page = logi_page)

/-- Insert `e` into an ascending list, after any entries of equal
`logi_page`. -/
def insertSorted (e : H5FD__onion_index_entry) :
    List H5FD__onion_index_entry → List H5FD__onion_index_entry
  | [] => [e]
  | x :: xs =>
      if x.logi_page ≤ e.logi_page then x :: insertSorted e xs
      else e :: x :: xs

/-- The `qsort` order of `H5FD__onion_archival_index_list_sort_compar`:
ascending `logi_page`.  `qsort` leaves the relative order of equal keys
unspecified; the model commits to a stable insertion sort. -/
def sortByLogiPage (l : List H5FD__onion_index_entry) :
    List H5FD__onion_index_entry :=
  l.foldl (fun acc e => insertSorted e acc) []

/-- Models `H5FD_onion_merge_revision_index_into_archival_index`: require matching
page sizes; short-circuit an empty revision index; otherwise copy every hash
chain node into a scratch list (the C source sweeps bucket indices in
ascending order, chains head-first; folding the nonempty buckets in
ascending index order visits the same nodes in the same order), sort it,
keep exactly the archival entries
whose page the sorted scratch list does not contain (per
`H5FD_onion_archival_index_find`), concatenate and sort. -/
def H5FD_onion_merge_revision_index_into_archival_index
    (rix : H5FD__onion_revision_index) (aix : H5FD__onion_archival_index) :
    Option H5FD__onion_archival_index :=
  if aix.page_size_log2 ≠ rix.page_size_log2 then none
  else if rix.n_entries = 0 then some aix
  else
    let live := (Batteries.RBMap.toList rix.hash_table).foldl
      (fun acc iChain => acc ++ iChain.2) []
    let new_list := sortByLogiPage live
    let new_aix : H5FD__onion_archival_index :=
      { page_size_log2 := aix.page_size_log2, list := new_list }
    let kept := aix.list.filter
      (fun e => (H5FD_onion_archival_index_find new_aix e.logi_page).isNone)
    some { aix with list := sortByLogiPage (new_list ++ kept) }

end Onion

/-! ### Binary codecs (`H5FD_onion_history_header_*`, `H5FD_onion_whole_history_*`) -/

namespace Onion

/-- Models `struct H5FD__onion_history_header` (in-memory form, without the
constant `magic` / `version` tags; `checksum` is an output of decode and is
checked inside the model decoder). -/
structure H5FD__onion_history_header where
  flags : Nat
  page_size : Nat
  origin_eof : Nat
  whole_history_addr : Nat
  whole_history_size : Nat
deriving Repr, DecidableEq, Inhabited

/-- The signature bytes `"OHDH"`. -/
def sigOHDH : List Nat := [79, 72, 68, 72]

/-- Models `H5FD_onion_history_header_encode` (40 bytes): signature, version byte,
flags encoded as a 32-bit little-endian word truncated to its low three
bytes (`ptr -= 1`), `page_size : u32`, then the three `u64` fields, then
the Fletcher-32 checksum of the preceding 36 bytes. -/
def H5FD_onion_history_header_encode (h : H5FD__onion_history_header) :
    List Nat :=
  let head36 := sigOHDH ++ [1] ++ leBytes 3 h.flags ++ leBytes 4 h.page_size
    ++ leBytes 8 h.origin_eof ++ leBytes 8 h.whole_history_addr
    ++ leBytes 8 h.whole_history_size
  head36 ++ leBytes 4 (H5_checksum_fletcher32 head36)

/-- Models `H5FD_onion_history_header_decode`: check signature and version byte;
flags from three bytes (the high byte zeroed); `page_size` via
`UINT32DECODE`.  The source then copies each eight-byte field into a
`uint64_t` but extracts it with `UINT32DECODE`, so `origin_eof`,
`whole_history_addr` and `whole_history_size` come back as the low 32 bits
only — the model mirrors that with `leVal 4` while advancing past all 8
bytes.  Finally the Fletcher-32 checksum of the 36-byte head is compared
against the stored trailing word; mismatch fails (returns `none`, the
source's 0). -/
def H5FD_onion_history_header_decode (buf : List Nat) :
    Option H5FD__onion_history_header :=
  if buf.take 4 ≠ sigOHDH then none
  else if buf.getD 4 0 ≠ 1 then none
  else
    let sum := H5_checksum_fletcher32 (buf.take 36)
    if sum ≠ leVal 4 (buf.drop 36) then none
    else some
      { flags := leVal 3 (buf.drop 5)
        page_size := leVal 4 (buf.drop 8)
        origin_eof := leVal 4 (buf.drop 12)
        whole_history_addr := leVal 4 (buf.drop 20)
        whole_history_size := leVal 4 (buf.drop 28) }

/-- Models `struct H5FD__onion_record_pointer`. -/
structure H5FD__onion_record_pointer where
  phys_addr : Nat
  record_size : Nat
  checksum : Nat
deriving Repr, DecidableEq, Inhabited

/-- Models `struct H5FD__onion_whole_history` (without the constant tags).
`n_revisions` is the stored count; on the first decode pass it is set while
`record_pointer_list` stays empty. -/
structure H5FD__onion_whole_history where
  n_revisions : Nat
  record_pointer_list : List H5FD__onion_record_pointer
deriving Repr, DecidableEq, Inhabited

/-- The signature bytes `"OWHS"`. -/
def sigOWHS : List Nat := [79, 87, 72, 83]

/-- Models `H5FD_onion_whole_history_encode` (`20 + 20 * n` bytes): signature,
version padded to four bytes, `n_revisions : u64`, one
`(phys_addr : u64, record_size : u64, checksum : u32)` triple per revision
— the stored `checksum` field is written back verbatim, not recomputed —
then the Fletcher-32 checksum of everything so far.  The source iterates
`n_revisions` array slots; all call sites keep `n_revisions` equal to the
list length. -/
def H5FD_onion_whole_history_encode (whs : H5FD__onion_whole_history) :
    List Nat :=
  let head := sigOWHS ++ [1, 0, 0, 0] ++ leBytes 8 whs.n_revisions
    ++ ((whs.record_pointer_list.take whs.n_revisions).map
        (fun rp => leBytes 8 rp.phys_addr ++ leBytes 8 rp.record_size
          ++ leBytes 4 rp.checksum)).flatten
  head ++ leBytes 4 (H5_checksum_fletcher32 head)

/-- The record-pointer block of the second decode pass: `n` consecutive
20-byte triples.  The `entry_checksum` word is read back into the struct
and is *not* compared against anything. -/
def decodeRecordPointers : Nat → List Nat → List H5FD__onion_record_pointer
  | 0, _ => []
  | k + 1, bs =>
      { phys_addr := leVal 8 bs
        record_size := leVal 8 (bs.drop 8)
        checksum := leVal 4 (bs.drop 16) } :: decodeRecordPointers k (bs.drop 20)

/-- Models `H5FD_onion_whole_history_decode`.  Two-phase: with `s.n_revisions = 0`
(first pass) only the count is read and the record-pointer block is skipped;
otherwise (second pass) the stored count must equal `s.n_revisions` and the
record pointers are filled in.  Both passes verify the *overall* trailing
checksum over the `16 + 20 * n` preceding bytes; no per-entry checksum is
verified.  Success returns the number of bytes occupied, `20 + 20 * n`,
with the populated structure.  (The source's `NULL == record_pointer_list`
second-pass check has no counterpart: model lists are never null.  A stray
debug `printf` at the top of the source function does not affect the
result.) -/
def H5FD_onion_whole_history_decode (buf : List Nat)
    (s : H5FD__onion_whole_history) :
    Option (Nat × H5FD__onion_whole_history) :=
  if buf.take 4 ≠ sigOWHS then none
  else if buf.getD 4 0 ≠ 1 then none
  else
    let n := leVal 8 (buf.drop 8)
    if s.n_revisions = 0 then
      let sum := H5_checksum_fletcher32 (buf.take (16 + 20 * n))
      if sum ≠ leVal 4 (buf.drop (16 + 20 * n)) then none
      else some (20 + 20 * n,
        { n_revisions := n, record_pointer_list := s.record_pointer_list })
    else if s.n_revisions ≠ n then none
    else
      let lst := decodeRecordPointers n (buf.drop 16)
      let sum := H5_checksum_fletcher32 (buf.take (16 + 20 * n))
      if sum ≠ leVal 4 (buf.drop (16 + 20 * n)) then none
      else some (20 + 20 * n, { n_revisions := n, record_pointer_list := lst })

end Onion

/-! ### The opened file and the page-granular read and write paths -/

namespace Onion

/-- Backing-file contents: a finite map from byte address to byte value;
unwritten addresses read as zero. -/
def ByteMap := Batteries.RBMap Nat Nat compare

/-- The byte at address `i`. -/
def byteAt (m : ByteMap) (i : Nat) : Nat := (Batteries.RBMap.find? m i).getD 0

/-- Model of `H5FDwrite`: store `data` at consecutive addresses from `addr`. -/
def writeBytesAt : ByteMap → Nat → List Nat → ByteMap
  | m, _, [] => m
  | m, a, b :: bs => writeBytesAt (Batteries.RBMap.insert m a b) (a + 1) bs

/-- Model of `H5FDread`: the `n` bytes at `addr`. -/
def readBytesAt (m : ByteMap) (addr n : Nat) : List Nat :=
  (List.range n).map (fun j => byteAt m (addr + j))

/-- The fields of `struct H5FD__onion_revision_record` the storage paths
use (`time_of_creation` is wall-clock input and is not modelled). -/
structure H5FD__onion_revision_record where
  revision_id : Nat
  parent_revision_id : Nat
  logi_eof : Nat
  user_id : Nat
  username : List Nat
  comment : List Nat
  archival_index : H5FD__onion_archival_index
deriving Repr, DecidableEq, Inhabited

/-- Models `struct H5FD_onion_t`: the opened virtual file, together with the
modelled contents of its backing files.  `backing_onion_eoa` /
`backing_canon_eoa` track the raw files' end-of-addressable marks
(`H5FD_set_eoa` on the backing handles). -/
structure H5FD_onion_t where
  header : H5FD__onion_history_header
  summary : H5FD__onion_whole_history
  rev_record : H5FD__onion_revision_record
  rev_index : Option H5FD__onion_revision_index
  is_open_rw : Bool
  page_align_history : Bool
  history_eof : Nat
  origin_eof : Nat
  logi_eoa : Nat
  logi_eof : Nat
  backing_onion : ByteMap
  backing_onion_eoa : Nat
  backing_canon : ByteMap
  backing_canon_eoa : Nat

/-- Models `H5FD__onion_set_eoa`: record the logical end-of-address mark. -/
def H5FD__onion_set_eoa (f : H5FD_onion_t) (addr : Nat) : H5FD_onion_t :=
  { f with logi_eoa := addr }

/-- Models `H5FD__onion_get_eoa`. -/
def H5FD__onion_get_eoa (f : H5FD_onion_t) : Nat := f.logi_eoa

/-- Models `H5FD__onion_get_eof`. -/
def H5FD__onion_get_eof (f : H5FD_onion_t) : Nat := f.logi_eof

/-- The revision-index lookup of the read and write paths:
`TRUE == file->is_open_rw && H5FD_onion_revision_index_find(...)` — the
index is only consulted on a read-write handle. -/
def liveIndexFind (f : H5FD_onion_t) (page_i : Nat) :
    Option H5FD__onion_index_entry :=
  if f.is_open_rw then
    match f.rev_index with
    | some rix => H5FD_onion_revision_index_find rix page_i
    | none => none
  else none

/-- Source resolution for one page of `H5FD__onion_read`: revision index
first (read-write handles only), then archival index, else the canonical
file for `min(overlap, readsize)` bytes and zero fill up to `readsize`. -/
def readPageChunk (f : H5FD_onion_t) (page_size page_i head readsize : Nat) :
    List Nat :=
  match liveIndexFind f page_i with
  | some e => readBytesAt f.backing_onion (e.phys_addr + head) readsize
  | none =>
    match H5FD_onion_archival_index_find f.rev_record.archival_index page_i with
    | some e => readBytesAt f.backing_onion (e.phys_addr + head) readsize
    | none =>
        let addr_start := page_i * page_size + head
        let overlap := if addr_start > f.origin_eof then 0
          else f.origin_eof - addr_start
        let read_size := min overlap readsize
        readBytesAt f.backing_canon addr_start read_size
          ++ List.replicate (readsize - read_size) 0

/-- The page loop of `H5FD__onion_read`, by remaining page count
(`remaining + 1` pages still to serve; `i = n_pages - remaining - 1`).
`page_gap_head` is nonzero only on the first iteration, `page_gap_tail`
only on the last; both and `page_readsize` use wrapping `uint64_t`
subtraction exactly as the source does. -/
def readLoop (f : H5FD_onion_t) (ps pslog2 page0 offset nPages : Nat) :
    Nat → Nat → List Nat
  | 0, _ => []
  | remaining + 1, bytes_to_read =>
      let i := nPages - (remaining + 1)
      let page_i := page0 + i
      let head := if i = 0 then offset % 2 ^ pslog2 else 0
      let tail := if remaining = 0 then u64sub (u64sub ps bytes_to_read) head
        else 0
      let readsize := u64sub (u64sub ps head) tail
      readPageChunk f ps page_i head readsize
        ++ readLoop f ps pslog2 page0 offset nPages remaining
            (u64sub bytes_to_read readsize)

/-- Models `H5FD__onion_read`: reject a range beyond `logi_eoa`; a zero-length
read returns immediately; otherwise serve
`n_pages = (len + page_size - 1) >> page_size_log2` pages starting at
`page_0 = offset >> page_size_log2`. -/
def H5FD__onion_read (f : H5FD_onion_t) (offset len : Nat) :
    Option (List Nat) :=
  if offset + len > f.logi_eoa then none
  else if len = 0 then some []
  else
    let ps := f.header.page_size
    let pslog2 := f.rev_record.archival_index.page_size_log2
    let page0 := offset / 2 ^ pslog2
    let nPages := (len + ps - 1) / 2 ^ pslog2
    some (readLoop f ps pslog2 page0 offset nPages nPages len)

/-- The `page_buf` seeding of `H5FD__onion_write` for a partial page that is
*not* in the revision index: a page found in the archival index is copied
verbatim; otherwise up to `min(overlap, page_size)` canonical bytes are
read and the rest is zero.  (The source zeroes `[read_size, head)` and
`[max(read_size, ps - tail), ps)` explicitly and overlays
`[head, ps - tail)` with the caller's bytes immediately afterwards, so
modelling the unzeroed leftover gap as zero is observationally exact.) -/
def writeSeedPage (f : H5FD_onion_t) (ps page_i : Nat) : List Nat :=
  match H5FD_onion_archival_index_find f.rev_record.archival_index page_i with
  | some e => readBytesAt f.backing_onion e.phys_addr ps
  | none =>
      let addr_start := page_i * ps
      let overlap := if addr_start > f.origin_eof then 0
        else f.origin_eof - addr_start
      let read_size := min overlap ps
      readBytesAt f.backing_canon addr_start read_size
        ++ List.replicate (ps - read_size) 0

/-- The page loop of `H5FD__onion_write`, threading the file state and the
input cursor (`bytes_to_write` is always the remaining buffer length).

A page found in the revision index is rewritten in place at its existing
`phys_addr`; for a partial page the current image is read first and the
source then overlays the caller's bytes with
`HDmemcpy(page_buf, buf, page_n_used)` — at offset 0, *not* at
`page_gap_head` — which the model mirrors.

A page not in the index is seeded (`writeSeedPage`), overlaid at
`page_gap_head`, written to a fresh slot at `history_eof` (extending the
backing EOA), inserted as `(page, history_eof)`, and `history_eof`
advances by `page_size`. -/
def writeLoop (f : H5FD_onion_t) (ps pslog2 page0 offset nPages : Nat) :
    Nat → List Nat → Option H5FD_onion_t
  | 0, _ => some f
  | remaining + 1, buf =>
      let i := nPages - (remaining + 1)
      let page_i := page0 + i
      let head := if i = 0 then offset % 2 ^ pslog2 else 0
      let tail := if remaining = 0 then u64sub (u64sub ps buf.length) head
        else 0
      let used := u64sub (u64sub ps head) tail
      match liveIndexFind f page_i with
      | some e =>
          let write_buf :=
            if head ≠ 0 ∨ tail ≠ 0 then
              let page_buf := readBytesAt f.backing_onion e.phys_addr ps
              buf.take used ++ page_buf.drop used
            else buf.take ps
          writeLoop
            { f with backing_onion :=
                writeBytesAt f.backing_onion e.phys_addr write_buf }
            ps pslog2 page0 offset nPages remaining (buf.drop used)
      | none =>
          let write_buf :=
            if head ≠ 0 ∨ tail ≠ 0 then
              let page_buf := writeSeedPage f ps page_i
              page_buf.take head ++ buf.take used ++ page_buf.drop (head + used)
            else buf.take ps
          match f.rev_index with
          | none => none
          | some rix =>
            match H5FD_onion_revision_index_insert rix
                ⟨page_i, f.history_eof⟩ with
            | none => none
            | some rix' =>
                writeLoop
                  { f with
                      backing_onion_eoa := f.history_eof + ps
                      backing_onion :=
                        writeBytesAt f.backing_onion f.history_eof write_buf
                      rev_index := some rix'
                      history_eof := f.history_eof + ps }
                  ps pslog2 page0 offset nPages remaining (buf.drop used)

/-- Models `H5FD__onion_write`: fail on a read-only handle; the source asserts a
present revision index and `offset + len <= logi_eoa` (modelled as guards);
a zero-length write is a no-op; otherwise run the page loop and finish with
`logi_eof = max(logi_eof, offset + len)`. -/
def H5FD__onion_write (f : H5FD_onion_t) (offset : Nat) (buf : List Nat) :
    Option H5FD_onion_t :=
  if f.is_open_rw = false then none
  else if f.rev_index.isNone then none
  else if offset + buf.length > f.logi_eoa then none
  else if buf.length = 0 then some f
  else
    let ps := f.header.page_size
    let pslog2 := f.rev_record.archival_index.page_size_log2
    let page0 := offset / 2 ^ pslog2
    let nPages := (buf.length + ps - 1) / 2 ^ pslog2
    (writeLoop f ps pslog2 page0 offset nPages nPages buf).map
      (fun f' => { f' with logi_eof := max f'.logi_eof (offset + buf.length) })

end Onion

/-! ### The open orchestrator (`H5FD__onion_open` and its helpers) -/

namespace Onion

/-- Header flag bits (`H5FDonion_priv.h`). -/
def FLAG_WRITE_LOCK : Nat := 1

/-- Divergent-history header flag bit. -/
def FLAG_DIVERGENT_HISTORY : Nat := 2

/-- Page-alignment header flag bit. -/
def FLAG_PAGE_ALIGNMENT : Nat := 4

/-- Modelled from the spec: the configured backing store
(`H5FD_onion_fapl_info_t.store_target`; the public header `H5FDonion.h` is
not under `src/`).  `h5` is the reserved canonical-embedded variant, and
`invalid` stands for any other value. -/
inductive H5FD_onion_store_target where
  | onion
  | h5
  | invalid
deriving Repr, DecidableEq

/-- Modelled from the spec: the onion configuration (`§6`: `page_size`,
`store_target`, `revision_id` or the "latest" sentinel, the two creation
flags, an optional comment; the public header `H5FDonion.h` is not under
`src/`).  The backing FAPL handle is dropped: the model's backing streams
are the `Backend` contents. -/
structure H5FD_onion_fapl_info_t where
  page_size : Nat
  store_target : H5FD_onion_store_target
  revision_id : Nat
  flag_divergent_history : Bool
  flag_page_alignment : Bool
  comment : List Nat
deriving Repr, DecidableEq

/-- Modelled from the spec: the sentinel `revision_id` naming the latest
revision (`H5FD_ONION_FAPL_INFO_REVISION_ID_LATEST`, public header not
under `src/`), the largest `uint64_t`. -/
def REVISION_ID_LATEST : Nat := 2 ^ 64 - 1

/-- The open flags the driver inspects: `H5F_ACC_RDWR`, `H5F_ACC_CREAT`,
`H5F_ACC_TRUNC`. -/
structure OpenFlags where
  rdwr : Bool
  creat : Bool
  trunc : Bool
deriving Repr, DecidableEq

/-- The raw-I/O backend as the spec's interface (§6): the three byte
streams (`none` = the file does not exist), their end-of-addressable marks,
and the process user info consulted by `H5FD__onion_set_userinfo_in_record`
(`HDgetuid` / `HDgetpwuid`; `none` = no passwd entry). -/
structure Backend where
  canon : Option (List Nat)
  onion : Option (List Nat)
  recov : Option (List Nat)
  canon_eoa : Nat
  onion_eoa : Nat
  recov_eoa : Nat
  uid : Nat
  username : Option (List Nat)
deriving Repr, DecidableEq

/-- Error classes of the open paths (the `H5E_...` codes the source
raises). `unmodeledRevisionRecord` marks the one branch outside this
model's scope: ingesting a committed revision record
(`H5FD__onion_injest_revision_record`) when `n_revisions > 0`. -/
inductive OnionOpenError where
  | unsupported
  | badValue
  | cantOpenFile
  | cantDecode
  | cantCreate
  | cantInit
  | writeError
  | unmodeledRevisionRecord
deriving Repr, DecidableEq

/-- Write `data` into a byte-list file at offset `off`, zero-padding any gap
before `off`. -/
def writeListAt (file : List Nat) (off : Nat) (data : List Nat) : List Nat :=
  let f := if file.length < off + data.length then
    file ++ List.replicate (off + data.length - file.length) 0 else file
  f.take off ++ data ++ f.drop (off + data.length)

/-- The empty byte map. -/
def emptyByteMap : ByteMap := Batteries.RBMap.empty

/-- A byte map holding `l` at addresses `0, 1, ...`. -/
def byteMapOfList (l : List Nat) : ByteMap := writeBytesAt emptyByteMap 0 l

/-- The canonical-file sentinel `"ONIONEOF"`. -/
def sigONIONEOF : List Nat := [79, 78, 73, 79, 78, 69, 79, 70]

/-- The freshly `H5FL_CALLOC`ed `H5FD_onion_t`: every field zero, empty or
absent. -/
def emptyFile : H5FD_onion_t :=
  { header := ⟨0, 0, 0, 0, 0⟩
    summary := ⟨0, []⟩
    rev_record := ⟨0, 0, 0, 0, [], [], ⟨0, []⟩⟩
    rev_index := none
    is_open_rw := false
    page_align_history := false
    history_eof := 0
    origin_eof := 0
    logi_eoa := 0
    logi_eof := 0
    backing_onion := emptyByteMap
    backing_onion_eoa := 0
    backing_canon := emptyByteMap
    backing_canon_eoa := 0 }

/-- Rounding `(x + page_size - 1) & ~(page_size - 1)`: round up to a page boundary
(`page_size` a power of two). -/
def pageAlignUp (x page_size : Nat) : Nat :=
  ((x + page_size - 1) / page_size) * page_size

/-- Models `H5FD__onion_injest_history_header`: require
`get_eof >= addr + 40`, read 40 bytes at `addr`, decode.  (The routine then
recomputes the Fletcher-32 checksum of the first 36 bytes and compares it
with the stored field — the identical comparison the decoder just made, so
it cannot fail anew.)  The caller's backing EOA becomes `addr + 40`. -/
def H5FD__onion_injest_history_header (onionBytes : List Nat) (addr : Nat) :
    Option H5FD__onion_history_header :=
  if onionBytes.length < addr + 40 then none
  else H5FD_onion_history_header_decode ((onionBytes.drop addr).take 40)

/-- Models `H5FD__onion_injest_whole_history`: require `get_eof >= addr + size`,
read `size` bytes, run the two decode passes (each must report exactly
`size` occupied bytes), re-verify the overall checksum (identically to the
decoder), and hand back the populated structure.  The caller's backing EOA
becomes `addr + size`. -/
def H5FD__onion_injest_whole_history (onionBytes : List Nat)
    (addr size : Nat) : Option H5FD__onion_whole_history :=
  if onionBytes.length < addr + size then none
  else
    let buf := (onionBytes.drop addr).take size
    match H5FD_onion_whole_history_decode buf ⟨0, []⟩ with
    | none => none
    | some (sz1, s1) =>
        if sz1 ≠ size then none
        else
          match H5FD_onion_whole_history_decode buf s1 with
          | none => none
          | some (sz2, s2) => if sz2 ≠ size then none else some s2

/-- Models `H5FD__onion_whole_history_write`: encode `whs`, extend the destination
EOA when writing past `filesize_curr`, write at `off_start`; returns the
updated file bytes, the updated EOA and the byte count written. -/
def H5FD__onion_whole_history_write (whs : H5FD__onion_whole_history)
    (dest : List Nat) (destEoa off_start filesize_curr : Nat) :
    List Nat × Nat × Nat :=
  let bytes := H5FD_onion_whole_history_encode whs
  let eoa' := if bytes.length + off_start > filesize_curr then
    off_start + bytes.length else destEoa
  (writeListAt dest off_start bytes, eoa', bytes.length)

/-- Models `H5FD__onion_create_truncate_onion`: set the header flags (write-lock
always, divergent-history and page-alignment per configuration), zero
`origin_eof`, capture user info, create/truncate the three backing files,
write the `"ONIONEOF"` sentinel to the canonical file, encode the empty
whole-history into the recovery file, encode the header at onion offset 0,
set `history_eof` past the header (page-aligned when configured) and
initialise a fresh revision index.  `page_align_history` was already set by
the caller. -/
def H5FD__onion_create_truncate_onion (fa : H5FD_onion_fapl_info_t)
    (file : H5FD_onion_t) (b : Backend) :
    Except OnionOpenError (H5FD_onion_t × Backend) :=
  let flags0 := FLAG_WRITE_LOCK
    ||| (if fa.flag_divergent_history then FLAG_DIVERGENT_HISTORY else 0)
    ||| (if fa.flag_page_alignment then FLAG_PAGE_ALIGNMENT else 0)
  let hdr0 := { file.header with flags := flags0, origin_eof := 0 }
  match b.username with
  | none => .error .badValue
  | some uname =>
    let rec0 := { file.rev_record with user_id := b.uid, username := uname }
    let b1 := { b with canon := some [], onion := some [], recov := some [] }
    let b2 := { b1 with canon_eoa := 8
                        canon := some (writeListAt [] 0 sigONIONEOF) }
    let whBytes := H5FD_onion_whole_history_encode ⟨0, []⟩
    if whBytes.length ≠ 20 then .error .badValue
    else
      let b3 := { b2 with recov_eoa := whBytes.length
                          recov := some (writeListAt [] 0 whBytes) }
      let hdr1 := { hdr0 with whole_history_size := whBytes.length }
      let hdrBytes := H5FD_onion_history_header_encode hdr1
      if hdrBytes.length ≠ 40 then .error .badValue
      else
        let b4 := { b3 with onion_eoa := hdrBytes.length
                            onion := some (writeListAt [] 0 hdrBytes) }
        let he0 := hdrBytes.length
        let he := if file.page_align_history then
          pageAlignUp he0 hdr1.page_size else he0
        match H5FD_onion_revision_index_init fa.page_size with
        | none => .error .cantInit
        | some rix =>
            .ok ({ file with
                    header := hdr1
                    rev_record := rec0
                    rev_index := some rix
                    history_eof := he }, b4)

/-- Models `H5FD__onion_open_rw`: refuse a write-locked header; create/truncate
the recovery file and copy the current whole-history into it (the written
size must equal `header.whole_history_size`); set the write-lock flag and
rewrite the header at onion offset 0; initialise a fresh revision index;
advance `revision_id` past `parent_revision_id`; mark the handle
read-write. -/
def H5FD__onion_open_rw (fa : H5FD_onion_fapl_info_t) (file : H5FD_onion_t)
    (b : Backend) : Except OnionOpenError (H5FD_onion_t × Backend) :=
  if file.header.flags &&& FLAG_WRITE_LOCK ≠ 0 then .error .unsupported
  else
    let w := H5FD__onion_whole_history_write file.summary [] 0 0 0
    let b1 := { b with recov := some w.1, recov_eoa := w.2.1 }
    if w.2.2 = 0 then .error .writeError
    else if w.2.2 ≠ file.header.whole_history_size then .error .writeError
    else
      let hdr' := { file.header with
        flags := file.header.flags ||| FLAG_WRITE_LOCK }
      let hdrBytes := H5FD_onion_history_header_encode hdr'
      if hdrBytes.length = 0 then .error .badValue
      else
        match b1.onion with
        | none => .error .cantOpenFile
        | some ob =>
          let b2 := { b1 with onion := some (writeListAt ob 0 hdrBytes) }
          match H5FD_onion_revision_index_init fa.page_size with
          | none => .error .cantInit
          | some rix =>
              .ok ({ file with
                      header := hdr'
                      rev_index := some rix
                      rev_record := { file.rev_record with
                        parent_revision_id := file.rev_record.revision_id
                        revision_id := file.rev_record.revision_id + 1 }
                      is_open_rw := true }, b2)

/-- The fabrication block of `H5FD__onion_open` (lines 2199-2350): entered
when the onion sidecar does not exist but `H5F_ACC_RDWR` is requested.  It
ORs the divergent-history / page-alignment creation flags into the header
(never the write-lock flag), captures user info, creates the onion and
recovery backing files, stamps `whole_history_size = 20` and
`whole_history_addr = 41` into the header, encodes it, encodes an empty
whole-history, sets the onion EOA to 61, writes the header at offset 0 and
the whole-history at offset 41, sets `history_eof = 40`
(`page_align_history` is still false at this point), initialises a fresh
revision index, and finally resets the in-memory
`whole_history_addr` to 40 — the on-disk header keeps 41. -/
def fabricateOnionFile (fa : H5FD_onion_fapl_info_t) (file : H5FD_onion_t)
    (b : Backend) : Except OnionOpenError (H5FD_onion_t × Backend) :=
  let flags0 := file.header.flags
    ||| (if fa.flag_divergent_history then FLAG_DIVERGENT_HISTORY else 0)
    ||| (if fa.flag_page_alignment then FLAG_PAGE_ALIGNMENT else 0)
  match b.username with
  | none => .error .badValue
  | some uname =>
    let rec0 := { file.rev_record with user_id := b.uid, username := uname }
    let b1 := { b with onion := some [], recov := some [] }
    let hdr1 := { file.header with
      flags := flags0, whole_history_size := 20, whole_history_addr := 41 }
    let hdrBytes := H5FD_onion_history_header_encode hdr1
    if hdrBytes.length ≠ 40 then .error .badValue
    else
      let whBytes := H5FD_onion_whole_history_encode ⟨0, []⟩
      let hdr2 := { hdr1 with whole_history_size := whBytes.length }
      if whBytes.length ≠ 20 then .error .badValue
      else
        let b2 := { b1 with onion_eoa := hdrBytes.length + whBytes.length + 1 }
        let b3 := { b2 with onion := some (writeListAt [] 0 hdrBytes) }
        let he := hdrBytes.length
        match H5FD_onion_revision_index_init fa.page_size with
        | none => .error .cantInit
        | some rix =>
          let hdr3 := { hdr2 with whole_history_addr := he }
          match b3.onion with
          | none => .error .cantOpenFile
          | some ob =>
            let b4 := { b3 with
              onion := some (writeListAt ob (hdrBytes.length + 1) whBytes) }
            .ok ({ file with
                    header := hdr3
                    rev_record := rec0
                    rev_index := some rix
                    history_eof := he }, b4)

/-- The tail of `H5FD__onion_open` shared by every successful path: copy a
nonempty FAPL comment into the mutable revision record when opening with
write intent, then set `origin_eof` from the header, `logi_eof` from the
revision record, `logi_eoa = 0`, and `history_eof` from the backing onion
EOA (page-aligned up when flagged), and package the backing contents. -/
def onionOpenFinish (fa : H5FD_onion_fapl_info_t) (flags : OpenFlags)
    (file : H5FD_onion_t) (b : Backend) :
    Except OnionOpenError H5FD_onion_t × Backend :=
  let file1 := if (flags.rdwr ∨ flags.creat ∨ flags.trunc) ∧ fa.comment ≠ []
    then { file with rev_record := { file.rev_record with
            comment := fa.comment } }
    else file
  let he0 := b.onion_eoa
  let he := if file1.page_align_history then
    pageAlignUp he0 file1.header.page_size else he0
  (.ok { file1 with
          origin_eof := file1.header.origin_eof
          logi_eof := file1.rev_record.logi_eof
          logi_eoa := 0
          history_eof := he
          backing_onion := byteMapOfList ((b.onion).getD [])
          backing_onion_eoa := b.onion_eoa
          backing_canon := byteMapOfList ((b.canon).getD [])
          backing_canon_eoa := b.canon_eoa }, b)

/-- The common portion of `H5FD__onion_open` for an (existing or just
fabricated) onion file, from `H5FD__onion_injest_history_header` on:
ingest the header at offset 0 (EOA := 40), set `page_align_history` from
the flags, refuse a write-locked header with `H5E_UNSUPPORTED`, ingest the
whole-history (EOA := its end), range-check the requested revision id
against `n_revisions` and the "latest" sentinel, ingest the target revision
record when any revisions exist (a branch outside this model, flagged
`unmodeledRevisionRecord`), run `H5FD__onion_open_rw` when opening
read-write, and finish. -/
def onionOpenExisting (fa : H5FD_onion_fapl_info_t) (flags : OpenFlags)
    (file : H5FD_onion_t) (b : Backend) :
    Except OnionOpenError H5FD_onion_t × Backend :=
  match b.onion with
  | none => (.error .cantOpenFile, b)
  | some obytes =>
    match H5FD__onion_injest_history_header obytes 0 with
    | none => (.error .cantDecode, b)
    | some hdr =>
      let b1 := { b with onion_eoa := 40 }
      let file1 := { file with
        header := hdr
        page_align_history := hdr.flags &&& FLAG_PAGE_ALIGNMENT ≠ 0 }
      if hdr.flags &&& FLAG_WRITE_LOCK ≠ 0 then (.error .unsupported, b1)
      else
        match H5FD__onion_injest_whole_history obytes
            hdr.whole_history_addr hdr.whole_history_size with
        | none => (.error .cantDecode, b1)
        | some whs =>
          let b2 := { b1 with
            onion_eoa := hdr.whole_history_addr + hdr.whole_history_size }
          if fa.revision_id ≥ whs.n_revisions
              ∧ fa.revision_id ≠ REVISION_ID_LATEST then
            (.error .badValue, b2)
          else if whs.n_revisions > 0 then
            (.error .unmodeledRevisionRecord, b2)
          else
            let file2 := { file1 with summary := whs }
            if flags.rdwr then
              match H5FD__onion_open_rw fa file2 b2 with
              | .error e => (.error e, b2)
              | .ok (file3, b3) => onionOpenFinish fa flags file3 b3
            else onionOpenFinish fa flags file2 b2

/-- Models `H5FD__onion_open`: refuse the canonical-embedded store target
(`H5E_UNSUPPORTED`) and unknown targets (`H5E_BADVALUE`); initialise the
in-memory components (`header.page_size` from the FAPL, the archival
index's `page_size_log2` from the page-size loop); with
`H5F_ACC_CREAT | H5F_ACC_TRUNC` create/truncate everything (the handle
comes back read-write); otherwise open the canonical file, then the onion
file — fabricating one on the fly when it is absent but `H5F_ACC_RDWR` was
requested (`fabricateOnionFile`), refusing with `H5E_CANTOPENFILE` when it
is absent on a read-only open — and continue with `onionOpenExisting`. -/
def H5FD__onion_open (fa : H5FD_onion_fapl_info_t) (flags : OpenFlags)
    (b : Backend) : Except OnionOpenError H5FD_onion_t × Backend :=
  match fa.store_target with
  | .h5 => (.error .unsupported, b)
  | .invalid => (.error .badValue, b)
  | .onion =>
    let file0 := { emptyFile with
      header := { emptyFile.header with page_size := fa.page_size }
      rev_record := { emptyFile.rev_record with
        archival_index := ⟨lowBit fa.page_size, []⟩ } }
    if flags.creat ∨ flags.trunc then
      let file1 := if fa.flag_page_alignment then
        { file0 with
            header := { file0.header with
              flags := file0.header.flags ||| FLAG_PAGE_ALIGNMENT }
            page_align_history := true }
        else file0
      match H5FD__onion_create_truncate_onion fa file1 b with
      | .error _ => (.error .cantCreate, b)
      | .ok (file2, b2) =>
          onionOpenFinish fa flags { file2 with is_open_rw := true } b2
    else
      match b.canon with
      | none => (.error .cantOpenFile, b)
      | some _ =>
        match b.onion with
        | none =>
          if flags.rdwr then
            match fabricateOnionFile fa file0 b with
            | .error e => (.error e, b)
            | .ok (file1, b1) => onionOpenExisting fa flags file1 b1
          else (.error .cantOpenFile, b)
        | some _ => onionOpenExisting fa flags file0 b

end Onion

/-! ### Claim scenarios and theorems -/

namespace Onion

/-- Read-only open flags. -/
def openFlagsRO : OpenFlags := ⟨false, false, false⟩

/-- Read-write open flags (no create/truncate). -/
def openFlagsRW : OpenFlags := ⟨true, false, false⟩

/-- Create-truncate (write) open flags. -/
def openFlagsCT : OpenFlags := ⟨true, true, true⟩

/-- A baseline onion configuration: sidecar store, `page_size` and
`revision_id` as given, no creation flags, no comment. -/
def mkFapl (page_size revision_id : Nat) : H5FD_onion_fapl_info_t :=
  ⟨page_size, .onion, revision_id, false, false, []⟩

/-- A backend with no pre-existing files and a resolvable user. -/
def freshBackend : Backend := ⟨none, none, none, 0, 0, 0, 7, some [117]⟩

/-! #### C3 -/

/-- A valid single-entry archival index holding page 5. -/
def c3_aix : H5FD__onion_archival_index := ⟨9, [⟨5, 100⟩]⟩

/-- C3: the claim says a valid archival index always reports an entry whose
`logi_page` matches, *including when the list has exactly one entry*.  It
does not: with one entry the binary-search loop never runs, so the final
guard `(n != low || n != high)` compares three zeros and suppresses the
`list[0]` re-test — the lookup reports not-found even though the sole
entry's page is the probe. -/
theorem C3_single_entry_lookup_misses :
    H5FD_onion_archival_index_is_valid c3_aix = true
    ∧ c3_aix.list.contains ⟨5, 100⟩ = true
    ∧ H5FD_onion_archival_index_find c3_aix 5 = none := by decide

/-! #### C2 -/

/-- A revision index (page size 512) holding the single entry
`(page 0 ↦ 1000)`. -/
def c2_rix : Option H5FD__onion_revision_index :=
  (H5FD_onion_revision_index_init 512).bind
    (fun r => H5FD_onion_revision_index_insert r ⟨0, 1000⟩)

/-- A valid archival index holding `(page 0 ↦ 500)`. -/
def c2_aix : H5FD__onion_archival_index := ⟨9, [⟨0, 500⟩]⟩

/-- The merge of `c2_rix` into `c2_aix`. -/
def c2_merged : Option H5FD__onion_archival_index :=
  c2_rix.bind
    (fun r => H5FD_onion_merge_revision_index_into_archival_index r c2_aix)

/-- C2: the claim says the merged list holds each logical page exactly once
(entries from R superseding those of A).  It does not: the dedup step
binary-searches the sorted scratch copy of R with
`H5FD_onion_archival_index_find`, whose single-entry lookup always misses
(C3), so with `R = {(0 ↦ 1000)}` and `A = [(0 ↦ 500)]` the superseded
archival entry is kept and page 0 appears twice — the result is not even a
valid (strictly ascending) archival index. -/
theorem C2_merge_keeps_superseded_page :
    (c2_merged.map (fun a => a.list)) = some [⟨0, 1000⟩, ⟨0, 500⟩]
    ∧ (c2_merged.map
        (fun a => a.list.countP (fun e => e.logi_page == 0))) = some 2
    ∧ (c2_merged.map H5FD_onion_archival_index_is_valid) = some false := by
  decide

/-! #### C5 -/

/-- A history header whose `origin_eof` needs more than 32 bits. -/
def c5_header : H5FD__onion_history_header := ⟨0, 512, 2 ^ 32, 0, 0⟩

/-- C5: the claim says decode-of-encode restores all header fields for
arbitrary 64-bit `origin_eof` / `whole_history_addr` /
`whole_history_size`.  It does not: the decoder extracts each of the three
eight-byte fields with `UINT32DECODE`, keeping only the low 32 bits, so
`origin_eof = 2 ^ 32` comes back as 0 (while the checksum comparison still
succeeds, as witnessed by decode returning a value at all). -/
theorem C5_decode_truncates_64bit_fields :
    H5FD_onion_history_header_decode
        (H5FD_onion_history_header_encode c5_header)
      = some { c5_header with origin_eof := 0 }
    ∧ c5_header.origin_eof ≠ 0 := by decide

/-! #### C1 -/

/-- C1 session: create-truncate a fresh onion file with `page_size = 2`
and expose 8 addressable logical bytes. -/
def c1_session : Option H5FD_onion_t :=
  match (H5FD__onion_open (mkFapl 2 REVISION_ID_LATEST) openFlagsCT
      freshBackend).1 with
  | .ok f => some (H5FD__onion_set_eoa f 8)
  | .error _ => none

/-- Two page-granular writes: page 1 (bytes 2-3) first, then page 0
(bytes 0-1); the page images land in the onion file in write order, so
page 1's slot precedes page 0's. -/
def c1_after_writes : Option H5FD_onion_t :=
  (c1_session.bind (fun s => H5FD__onion_write s 2 [67, 68])).bind
    (fun s => H5FD__onion_write s 0 [65, 66])

/-- The read of logical bytes 1-2 afterwards. -/
def c1_read : Option (List Nat) :=
  c1_after_writes.bind (fun s => H5FD__onion_read s 1 2)

/-- C1: the claim says a read within `logi_eoa` returns the bytes last
written at each position.  It does not: the read path sizes the page loop
as `(len + page_size - 1) >> page_size_log2` *without* the head gap, so
this two-byte read at offset 1 is served as a single page — two bytes
fetched from offset 1 of page 0's slot, running past that page image into
whatever follows it in the onion file.  The session wrote byte 2 as 67
(and never wrote beyond it), yet the read returns `[66, 0]` instead of
`[66, 67]`. -/
theorem C1_read_crossing_pages_returns_wrong_bytes :
    c1_read = some [66, 0] ∧ c1_read ≠ some [66, 67] := by decide

/-! #### C7 -/

/-- C7 environment: an existing canonical file whose onion sidecar does not
exist. -/
def c7_back : Backend := ⟨some [], none, none, 0, 0, 0, 7, some [117]⟩

/-- Read-write open (no create-truncate flag) of `c7_back` at the latest
revision. -/
def c7_result : Except OnionOpenError H5FD_onion_t × Backend :=
  H5FD__onion_open (mkFapl 512 REVISION_ID_LATEST) openFlagsRW c7_back

/-- C7: the claim (and the spec, §9) says such an open fails with an
`IoError` and fabricates nothing.  The code instead enters the fabrication
branch: it creates the sidecar and recovery files, writes a fabricated
40-byte header (plus an empty whole-history at offset 41) into the new
sidecar, and hands back a working read-write handle. -/
theorem C7_missing_sidecar_open_fabricates :
    c7_back.onion = none
    ∧ (c7_result.1.toOption.map (fun f => f.is_open_rw)) = some true
    ∧ (c7_result.2.onion.map List.length) = some 61
    ∧ H5FD__onion_injest_history_header (c7_result.2.onion.getD []) 0 ≠ none
    := by decide

/-! #### C6 -/

/-- The header of a zero-revision onion file (`page_size = 512`, no flags,
whole-history of 20 bytes at offset 40). -/
def c6_header : H5FD__onion_history_header := ⟨0, 512, 0, 40, 20⟩

/-- A well-formed onion file with zero committed revisions: the encoded
header followed by the encoded empty whole-history. -/
def c6_onion_bytes : List Nat :=
  H5FD_onion_history_header_encode c6_header
    ++ H5FD_onion_whole_history_encode ⟨0, []⟩

/-- Backend holding the zero-revision onion file. -/
def c6_back : Backend :=
  ⟨some [], some c6_onion_bytes, none, 0, 0, 0, 7, some [117]⟩

/-- The error (if any) of an open outcome; the opened file itself carries
no decidable equality, so claims inspect this projection. -/
def openErrorOf (r : Except OnionOpenError H5FD_onion_t × Backend) :
    Option OnionOpenError :=
  match r.1 with
  | .error e => some e
  | .ok _ => none

/-- C6 counterexample: the claim says opening this file at revision 0
succeeds.  It does not: the open path refuses with a range error, because
`revision_id >= n_revisions` holds (`0 >= 0`) and 0 is not the "latest"
sentinel. -/
theorem C6_open_revision_zero_fails :
    openErrorOf (H5FD__onion_open (mkFapl 512 0) openFlagsRO c6_back)
      = some .badValue := by decide

/-- The zero-revision file opened read-only at the "latest" sentinel. -/
def c6_opened : Option H5FD_onion_t :=
  match (H5FD__onion_open (mkFapl 512 REVISION_ID_LATEST) openFlagsRO
      c6_back).1 with
  | .ok f => some f
  | .error _ => none

end Onion

namespace Onion

/-- An archival index with an empty list finds nothing (its
`n_entries == 0` pre-empt). -/
theorem archival_index_find_empty (aix : H5FD__onion_archival_index)
    (h : aix.list = []) (p : Nat) :
    H5FD_onion_archival_index_find aix p = none := by
  simp [H5FD_onion_archival_index_find, h]

/-- A read-only handle never consults the revision index. -/
theorem liveIndexFind_read_only (f : H5FD_onion_t)
    (h : f.is_open_rw = false) (p : Nat) : liveIndexFind f p = none := by
  simp [liveIndexFind, h]

/-- On a read-only handle with an empty archival index and
`origin_eof = 0`, every page chunk the read path produces is zero-filled. -/
theorem readPageChunk_zeros (f : H5FD_onion_t)
    (h1 : f.is_open_rw = false) (h2 : f.rev_record.archival_index.list = [])
    (h3 : f.origin_eof = 0) (ps page head readsize : Nat) :
    ∀ x ∈ readPageChunk f ps page head readsize, x = 0 := by
  intro x hx
  unfold readPageChunk at hx
  rw [liveIndexFind_read_only f h1, archival_index_find_empty _ h2] at hx
  simp only [h3, Nat.zero_sub, ite_self, Nat.zero_min, readBytesAt,
    List.range_zero, List.map_nil, List.nil_append] at hx
  exact List.eq_of_mem_replicate hx

/-- Page-loop version of `readPageChunk_zeros`. -/
theorem readLoop_zeros (f : H5FD_onion_t)
    (h1 : f.is_open_rw = false) (h2 : f.rev_record.archival_index.list = [])
    (h3 : f.origin_eof = 0) (ps pslog2 page0 offset nPages : Nat) :
    ∀ remaining btr,
      ∀ x ∈ readLoop f ps pslog2 page0 offset nPages remaining btr, x = 0 := by
  intro remaining
  induction remaining with
  | zero => intro btr x hx; simp [readLoop] at hx
  | succ k ih =>
      intro btr x hx
      simp only [readLoop, List.mem_append] at hx
      rcases hx with hx | hx
      · exact readPageChunk_zeros f h1 h2 h3 _ _ _ _ x hx
      · exact ih _ x hx

/-- A read from a read-only handle with an empty archival index and a
zero-sized origin yields only zero bytes. -/
theorem H5FD__onion_read_all_zero (f : H5FD_onion_t)
    (h1 : f.is_open_rw = false) (h2 : f.rev_record.archival_index.list = [])
    (h3 : f.origin_eof = 0) (offset len : Nat) (out : List Nat)
    (h : H5FD__onion_read f offset len = some out) : ∀ x ∈ out, x = 0 := by
  unfold H5FD__onion_read at h
  split at h
  · exact absurd h (by simp)
  · split at h
    · intro x hx
      rw [(by injection h : [] = out).symm] at hx
      simp at hx
    · intro x hx
      rw [(by injection h : _ = out).symm] at hx
      exact readLoop_zeros f h1 h2 h3 _ _ _ _ _ _ _ x hx

/-- C6 (amended): the claim as written fails (see
`C6_open_revision_zero_fails`: with zero committed revisions, revision 0 is
out of range).  What holds is the same behaviour at the "latest" sentinel:
the open succeeds and presents a logical file of size 0 — `logi_eof = 0`,
archival index and whole-history empty, a read-only handle — and any
successful read through the handle (under any addressable extent the upper
layer sets) returns only zero bytes. -/
theorem C6_zero_revision_latest_open_is_empty_zero_file :
    ((c6_opened.map (fun f => f.logi_eof)) = some 0
      ∧ (c6_opened.map (fun f => f.rev_record.archival_index.list)) = some []
      ∧ (c6_opened.map (fun f => f.summary.n_revisions)) = some 0
      ∧ (c6_opened.map (fun f => f.summary.record_pointer_list)) = some []
      ∧ (c6_opened.map (fun f => f.is_open_rw)) = some false
      ∧ (c6_opened.map (fun f => f.origin_eof)) = some 0)
    ∧ ∀ eoa offset len out,
        (c6_opened.bind (fun f =>
          H5FD__onion_read (H5FD__onion_set_eoa f eoa) offset len))
            = some out →
        ∀ x ∈ out, x = 0 := by
  constructor
  · decide
  · intro eoa offset len out h
    cases hopt : c6_opened with
    | none => rw [hopt] at h; simp at h
    | some f =>
        rw [hopt] at h
        try simp only [Option.some_bind] at h
        try rw [Option.some_bind] at h
        have p1 : c6_opened.map (fun f => f.is_open_rw) = some false := by
          decide
        have p2 : c6_opened.map
            (fun f => f.rev_record.archival_index.list) = some [] := by decide
        have p3 : c6_opened.map (fun f => f.origin_eof) = some 0 := by decide
        rw [hopt] at p1 p2 p3
        try simp only [Option.map_some, Option.some_inj] at p1 p2 p3
        try simp only [Option.map_some', Option.some_inj] at p1 p2 p3
        exact H5FD__onion_read_all_zero _
          (by simp [H5FD__onion_set_eoa, p1]) (by simp [H5FD__onion_set_eoa, p2])
          (by simp [H5FD__onion_set_eoa, p3]) offset len out h

/-- Witness for `C6_zero_revision_latest_open_is_empty_zero_file`: a
two-byte read at offset 0 with the addressable extent set to 4. -/
theorem C6_zero_revision_witness : ∀ x ∈ ([0, 0] : List Nat), x = 0 :=
  C6_zero_revision_latest_open_is_empty_zero_file.2 4 0 2 [0, 0] (by decide)

end Onion

/-! #### C8 -/

namespace Onion

/-- Length of a little-endian encoding. -/
theorem leBytes_length (k : Nat) : ∀ n, (leBytes k n).length = k := by
  induction k with
  | zero => intro n; rfl
  | succ k ih => intro n; simp [leBytes, ih]

/-- Little-endian decode of a little-endian encoding, any tail. -/
theorem leVal_leBytes_append (k : Nat) :
    ∀ (n : Nat) (rest : List Nat), n < 2 ^ (8 * k) →
      leVal k (leBytes k n ++ rest) = n := by
  induction k with
  | zero => intro n rest h; simp [leBytes, leVal]; omega
  | succ k ih =>
      intro n rest h
      have hp : 2 ^ (8 * (k + 1)) = 2 ^ (8 * k) * 256 := by
        rw [Nat.mul_succ, pow_add]; norm_num
      simp only [leBytes, List.cons_append, leVal, List.append_eq]
      rw [ih (n / 256) rest (by omega)]
      omega

/-- Little-endian decode of a little-endian encoding. -/
theorem leVal_leBytes (k n : Nat) (h : n < 2 ^ (8 * k)) :
    leVal k (leBytes k n) = n := by
  have := leVal_leBytes_append k n [] h
  rwa [List.append_nil] at this

/-- Dropping exactly the first summand of an append. -/
theorem drop_exact : ∀ (l₁ l₂ : List Nat) (k : Nat), l₁.length = k →
    (l₁ ++ l₂).drop k = l₂
  | [], l₂, k, h => by simp at h; subst h; rfl
  | a :: l₁, l₂, k, h => by
      subst h
      show (a :: (l₁ ++ l₂)).drop (l₁.length + 1) = l₂
      rw [List.drop_succ_cons]
      exact drop_exact l₁ l₂ _ rfl

/-- Taking exactly the first summand of an append. -/
theorem take_exact : ∀ (l₁ l₂ : List Nat) (k : Nat), l₁.length = k →
    (l₁ ++ l₂).take k = l₁
  | [], l₂, k, h => by simp at h; subst h; rfl
  | a :: l₁, l₂, k, h => by
      subst h
      show (a :: (l₁ ++ l₂)).take (l₁.length + 1) = a :: l₁
      rw [List.take_succ_cons]
      rw [take_exact l₁ l₂ _ rfl]

/-- Every 16-bit word `beWords` produces is below `2 ^ 16`. -/
theorem beWords_bound : ∀ (l : List Nat), ∀ w ∈ beWords l, w ≤ 65535
  | [], w, hw => by simp [beWords] at hw
  | [b], w, hw => by
      simp only [beWords, List.mem_singleton] at hw
      omega
  | b0 :: b1 :: bs, w, hw => by
      simp only [beWords, List.mem_cons] at hw
      rcases hw with h | h
      · omega
      · exact beWords_bound bs w h

/-- The folded Fletcher sums stay small, so the packed result fits 32
bits. -/
theorem fletcherWords_lt : ∀ (ws : List Nat) (s1 s2 : Nat),
    (∀ w ∈ ws, w ≤ 65535) → s1 ≤ 2 ^ 31 → s2 ≤ 2 ^ 31 →
    fletcherWords ws s1 s2 < 2 ^ 32
  | [], s1, s2, _, h1, h2 => by
      simp only [fletcherWords, fold16]
      omega
  | w :: ws, s1, s2, hw, h1, h2 => by
      have hww : w ≤ 65535 := hw w (List.mem_cons_self _ _)
      simp only [fletcherWords]
      exact fletcherWords_lt ws _ _
        (fun w' h => hw w' (List.mem_cons_of_mem _ h))
        (by simp only [fold16]; omega) (by simp only [fold16]; omega)

/-- The modelled Fletcher-32 checksum fits 32 bits. -/
theorem fletcher32_lt (buf : List Nat) :
    H5_checksum_fletcher32 buf < 2 ^ 32 :=
  fletcherWords_lt _ 0 0 (beWords_bound buf) (by omega) (by omega)

/-- The encoded record-pointer block of one entry, as written by
`H5FD_onion_whole_history_encode`. -/
def encodeRecordPointer (rp : H5FD__onion_record_pointer) : List Nat :=
  leBytes 8 rp.phys_addr ++ leBytes 8 rp.record_size ++ leBytes 4 rp.checksum

/-- Decoding one encoded record pointer off the front of a buffer. -/
theorem decodeRecordPointers_cons (rp : H5FD__onion_record_pointer)
    (rest : List Nat) (k : Nat) (h1 : rp.phys_addr < 2 ^ 64)
    (h2 : rp.record_size < 2 ^ 64) (h3 : rp.checksum < 2 ^ 32) :
    decodeRecordPointers (k + 1) (encodeRecordPointer rp ++ rest)
      = rp :: decodeRecordPointers k rest := by
  have e8 : ∀ m, (leBytes 8 m).length = 8 := fun m => leBytes_length 8 m
  have e4 : ∀ m, (leBytes 4 m).length = 4 := fun m => leBytes_length 4 m
  have hb : encodeRecordPointer rp ++ rest
      = leBytes 8 rp.phys_addr ++ (leBytes 8 rp.record_size
        ++ (leBytes 4 rp.checksum ++ rest)) := by
    simp [encodeRecordPointer, List.append_assoc]
  have d8 : (encodeRecordPointer rp ++ rest).drop 8
      = leBytes 8 rp.record_size ++ (leBytes 4 rp.checksum ++ rest) := by
    rw [hb]; exact drop_exact _ _ _ (e8 _)
  have d16 : (encodeRecordPointer rp ++ rest).drop 16
      = leBytes 4 rp.checksum ++ rest := by
    have := congrArg (List.drop 8) d8
    rw [List.drop_drop] at this
    rw [(by norm_num : (8 : Nat) + 8 = 16)] at this
    rw [this]
    exact drop_exact _ _ _ (e8 _)
  have d20 : (encodeRecordPointer rp ++ rest).drop 20 = rest := by
    have := congrArg (List.drop 4) d16
    rw [List.drop_drop] at this
    rw [(by norm_num : (4 : Nat) + 16 = 20)] at this
    rw [this]
    exact drop_exact _ _ _ (e4 _)
  simp only [decodeRecordPointers, d8, d16, d20]
  rw [hb]
  rw [leVal_leBytes_append 8 _ _ h1, leVal_leBytes_append 8 _ _ h2,
    leVal_leBytes_append 4 _ _ h3]

/-- Decoding the whole encoded record-pointer block restores the list,
whatever the stored per-entry checksums are. -/
theorem decodeRecordPointers_encode :
    ∀ (l : List H5FD__onion_record_pointer) (rest : List Nat),
      (∀ rp ∈ l, rp.phys_addr < 2 ^ 64 ∧ rp.record_size < 2 ^ 64
        ∧ rp.checksum < 2 ^ 32) →
      decodeRecordPointers l.length
        ((l.map encodeRecordPointer).flatten ++ rest) = l
  | [], rest, _ => by simp [decodeRecordPointers]
  | rp :: tl, rest, h => by
      obtain ⟨h1, h2, h3⟩ := h rp (List.mem_cons_self _ _)
      have := decodeRecordPointers_cons rp
        ((tl.map encodeRecordPointer).flatten ++ rest) tl.length h1 h2 h3
      simp only [List.map_cons, List.flatten_cons, List.length_cons,
        List.append_assoc]
      rw [← List.append_assoc (encodeRecordPointer rp)] at this
      rw [List.append_assoc] at this
      rw [this]
      rw [decodeRecordPointers_encode tl rest
        (fun rp' h' => h rp' (List.mem_cons_of_mem _ h'))]

/-- Length of the encoded record-pointer block. -/
theorem flatten_encodeRecordPointer_length :
    ∀ (l : List H5FD__onion_record_pointer),
      ((l.map encodeRecordPointer).flatten).length = 20 * l.length
  | [] => by simp
  | rp :: tl => by
      simp only [List.map_cons, List.flatten_cons, List.length_append,
        List.length_cons, flatten_encodeRecordPointer_length tl,
        encodeRecordPointer, leBytes_length]
      ring

end Onion

namespace Onion

/-- The 16 entry bytes (`phys_addr = 100`, `record_size = 50`) of the C8
counterexample buffer. -/
def c8_entry_bytes : List Nat := leBytes 8 100 ++ leBytes 8 50

/-- A whole-history buffer with one record pointer whose stored
`entry_checksum` field is 0 — *not* the Fletcher-32 checksum of the
preceding 16 bytes — while the trailing overall checksum is correct. -/
def c8_head : List Nat :=
  sigOWHS ++ [1, 0, 0, 0] ++ leBytes 8 1 ++ c8_entry_bytes ++ leBytes 4 0

/-- The full C8 counterexample buffer. -/
def c8_buf : List Nat := c8_head ++ leBytes 4 (H5_checksum_fletcher32 c8_head)

/-- C8 counterexample: the claim says the decoder fails whenever a
record-pointer's `entry_checksum` differs from the Fletcher-32 checksum of
the preceding 16 bytes.  It does not: the second decode pass reads the
per-entry checksum field back verbatim without comparing it against
anything, so this buffer — entry checksum 0, which is provably not the
checksum of its entry bytes — decodes successfully. -/
theorem C8_entry_checksum_not_verified :
    H5_checksum_fletcher32 c8_entry_bytes ≠ 0
    ∧ H5FD_onion_whole_history_decode c8_buf ⟨1, [⟨0, 0, 0⟩]⟩
        = some (40, ⟨1, [⟨100, 50, 0⟩]⟩) := by decide

/-- C8 (amended): what the decoder does verify.  Decoding an encoded
whole-history (second pass, matching count) succeeds and restores the
structure exactly, for *arbitrary* stored per-entry checksum words — no
hypothesis relates `rp.checksum` to any Fletcher value; the only checksum
gating success is the overall trailing one, which encode computes over the
same prefix the decoder re-checksums. -/
theorem C8_whole_history_decode_checks_only_overall_checksum
    (whs : H5FD__onion_whole_history)
    (hn : whs.n_revisions = whs.record_pointer_list.length)
    (hlt : whs.n_revisions < 2 ^ 64)
    (hf : ∀ rp ∈ whs.record_pointer_list,
      rp.phys_addr < 2 ^ 64 ∧ rp.record_size < 2 ^ 64 ∧ rp.checksum < 2 ^ 32) :
    H5FD_onion_whole_history_decode (H5FD_onion_whole_history_encode whs) whs
      = some (20 + 20 * whs.n_revisions, whs) := by
  obtain ⟨n, l⟩ := whs
  simp only at hn hf hlt
  subst hn
  set F := (l.map encodeRecordPointer).flatten with hF
  have htake : l.take l.length = l := List.take_length l
  have hhead : sigOWHS ++ [1, 0, 0, 0] ++ leBytes 8 l.length
      ++ ((l.take l.length).map
        (fun rp => leBytes 8 rp.phys_addr ++ leBytes 8 rp.record_size
          ++ leBytes 4 rp.checksum)).flatten
      = (sigOWHS ++ [1, 0, 0, 0] ++ leBytes 8 l.length) ++ F := by
    rw [htake]
    simp only [hF]
    have hfun : (fun rp : H5FD__onion_record_pointer =>
        leBytes 8 rp.phys_addr ++ (leBytes 8 rp.record_size
          ++ leBytes 4 rp.checksum)) = encodeRecordPointer := by
      funext rp
      simp [encodeRecordPointer, List.append_assoc]
    simp only [List.append_assoc]
    rw [hfun]
  have hE : H5FD_onion_whole_history_encode ⟨l.length, l⟩
      = ((sigOWHS ++ [1, 0, 0, 0] ++ leBytes 8 l.length) ++ F)
        ++ leBytes 4 (H5_checksum_fletcher32
          ((sigOWHS ++ [1, 0, 0, 0] ++ leBytes 8 l.length) ++ F)) := by
    simp only [H5FD_onion_whole_history_encode]
    rw [hhead]
  set c := H5_checksum_fletcher32
    ((sigOWHS ++ [1, 0, 0, 0] ++ leBytes 8 l.length) ++ F) with hc
  have hlen8 : (sigOWHS ++ [1, 0, 0, 0]).length = 8 := rfl
  have hlen16 : (sigOWHS ++ [1, 0, 0, 0] ++ leBytes 8 l.length).length = 16 := by
    simp [sigOWHS, leBytes_length]
  have hlenHead : ((sigOWHS ++ [1, 0, 0, 0] ++ leBytes 8 l.length) ++ F).length
      = 16 + 20 * l.length := by
    simp only [List.length_append, hF, flatten_encodeRecordPointer_length]
    simp [sigOWHS, leBytes_length]
  have hd8 : (H5FD_onion_whole_history_encode ⟨l.length, l⟩).drop 8
      = leBytes 8 l.length ++ (F ++ leBytes 4 c) := by
    rw [hE]
    have : ((sigOWHS ++ [1, 0, 0, 0] ++ leBytes 8 l.length) ++ F)
        ++ leBytes 4 c
        = (sigOWHS ++ [1, 0, 0, 0])
          ++ (leBytes 8 l.length ++ (F ++ leBytes 4 c)) := by
      simp [List.append_assoc]
    rw [this]
    exact drop_exact _ _ _ hlen8
  have hd16 : (H5FD_onion_whole_history_encode ⟨l.length, l⟩).drop 16
      = F ++ leBytes 4 c := by
    have := congrArg (List.drop 8) hd8
    rw [List.drop_drop] at this
    rw [(by norm_num : (8 : Nat) + 8 = 16)] at this
    rw [this]
    exact drop_exact _ _ _ (leBytes_length 8 _)
  have hdTail : (H5FD_onion_whole_history_encode ⟨l.length, l⟩).drop
      (16 + 20 * l.length) = leBytes 4 c := by
    rw [hE]; exact drop_exact _ _ _ hlenHead
  have htHead : (H5FD_onion_whole_history_encode ⟨l.length, l⟩).take
      (16 + 20 * l.length)
      = (sigOWHS ++ [1, 0, 0, 0] ++ leBytes 8 l.length) ++ F := by
    rw [hE]; exact take_exact _ _ _ hlenHead
  have hn8 : leVal 8 ((H5FD_onion_whole_history_encode ⟨l.length, l⟩).drop 8)
      = l.length := by
    rw [hd8]
    exact leVal_leBytes_append 8 _ _ (by simpa using hlt)
  have hsum : leVal 4 ((H5FD_onion_whole_history_encode ⟨l.length, l⟩).drop
      (16 + 20 * l.length)) = c := by
    rw [hdTail]
    exact leVal_leBytes 4 c (fletcher32_lt _)
  have hsig : (H5FD_onion_whole_history_encode ⟨l.length, l⟩).take 4
      = sigOWHS := by
    rw [hE]
    have : ((sigOWHS ++ [1, 0, 0, 0] ++ leBytes 8 l.length) ++ F)
        ++ leBytes 4 c
        = sigOWHS ++ (([1, 0, 0, 0] ++ leBytes 8 l.length)
          ++ (F ++ leBytes 4 c)) := by simp [List.append_assoc]
    rw [this]
    exact take_exact _ _ _ rfl
  have hver : (H5FD_onion_whole_history_encode ⟨l.length, l⟩).getD 4 0 = 1 := by
    rw [hE]
    rfl
  simp only [H5FD_onion_whole_history_decode, hsig, hver, hn8, hsum, htHead,
    hd16, ← hc, ne_eq]
  by_cases h0 : l.length = 0
  · have hl : l = [] := List.eq_nil_of_length_eq_zero h0
    subst hl
    simp
  · simp [h0, decodeRecordPointers_encode l (leBytes 4 c) hf]

/-- Witness for `C8_whole_history_decode_checks_only_overall_checksum` at a
one-entry history whose stored entry checksum is 3. -/
theorem C8_round_trip_witness :
    H5FD_onion_whole_history_decode
        (H5FD_onion_whole_history_encode ⟨1, [⟨100, 50, 3⟩]⟩) ⟨1, [⟨100, 50, 3⟩]⟩
      = some (20 + 20 * 1, ⟨1, [⟨100, 50, 3⟩]⟩) :=
  C8_whole_history_decode_checks_only_overall_checksum ⟨1, [⟨100, 50, 3⟩]⟩
    (by decide) (by decide) (by decide)

end Onion

/-! #### C10 -/

namespace Onion

/-- C10: opening any existing onion file whose (decodable) header carries
the write-lock flag fails with `H5E_UNSUPPORTED` — in read-only and in
read-write mode alike, for any revision request — and leaves the contents
of all three backing files untouched (the open only moves the in-memory
end-of-addressable marks before the check, and the lock check precedes
every write of both the plain and the fabrication-free paths). -/
theorem C10_write_locked_open_refused
    (fa : H5FD_onion_fapl_info_t) (flags : OpenFlags) (b : Backend)
    (obytes : List Nat) (hdr : H5FD__onion_history_header)
    (hst : fa.store_target = .onion)
    (hcreat : flags.creat = false) (htrunc : flags.trunc = false)
    (hcanon : b.canon.isSome = true)
    (honion : b.onion = some obytes)
    (hing : H5FD__onion_injest_history_header obytes 0 = some hdr)
    (hlock : hdr.flags &&& FLAG_WRITE_LOCK ≠ 0) :
    openErrorOf (H5FD__onion_open fa flags b) = some .unsupported
    ∧ (H5FD__onion_open fa flags b).2.onion = b.onion
    ∧ (H5FD__onion_open fa flags b).2.canon = b.canon
    ∧ (H5FD__onion_open fa flags b).2.recov = b.recov := by
  obtain ⟨ps, st, rid, fd, fp, cm⟩ := fa
  simp only at hst
  subst hst
  obtain ⟨cbytes, hbc⟩ := Option.isSome_iff_exists.mp hcanon
  simp only [H5FD__onion_open, hcreat, htrunc, Bool.false_eq_true, or_self,
    if_false, hbc, honion, onionOpenExisting, hing, openErrorOf]
  rw [if_pos hlock]
  exact ⟨rfl, rfl, rfl, rfl⟩

/-- A write-locked header (`flags = 1`). -/
def c10_header : H5FD__onion_history_header := ⟨1, 512, 0, 40, 20⟩

/-- An onion file whose header is write-locked. -/
def c10_onion_bytes : List Nat :=
  H5FD_onion_history_header_encode c10_header
    ++ H5FD_onion_whole_history_encode ⟨0, []⟩

/-- Backend holding the write-locked onion file. -/
def c10_back : Backend :=
  ⟨some [], some c10_onion_bytes, none, 0, 0, 0, 7, some [117]⟩

/-- Witness for `C10_write_locked_open_refused`: a read-write open of the
locked file fails `unsupported` and modifies no backing contents. -/
theorem C10_write_locked_witness :
    openErrorOf (H5FD__onion_open (mkFapl 512 0) openFlagsRW c10_back)
        = some .unsupported
    ∧ (H5FD__onion_open (mkFapl 512 0) openFlagsRW c10_back).2.onion
        = c10_back.onion
    ∧ (H5FD__onion_open (mkFapl 512 0) openFlagsRW c10_back).2.canon
        = c10_back.canon
    ∧ (H5FD__onion_open (mkFapl 512 0) openFlagsRW c10_back).2.recov
        = c10_back.recov :=
  C10_write_locked_open_refused (mkFapl 512 0) openFlagsRW c10_back
    c10_onion_bytes c10_header (by decide) (by decide) (by decide) (by decide)
    (by decide) (by decide) (by decide)

end Onion

/-! #### C4 and C9 -/

namespace Onion

/-- Run a sequence of revision-index inserts, stopping at the first
failure (scenario driver; the match keeps evaluation incremental). -/
def revisionIndexInsertAll :
    Option H5FD__onion_revision_index → List H5FD__onion_index_entry →
    Option H5FD__onion_revision_index
  | none, _ => none
  | some r, [] => some r
  | some r, e :: es =>
      revisionIndexInsertAll (H5FD_onion_revision_index_insert r e) es

/-- The 514 inserted pages of the C4 scenario: pages 1024 and 3072 share
bucket 0 of the initial 1024-bucket table and both re-hash to key 1024 of
the doubled table; pages 1 .. 511 fill 511 further buckets; the insert of
page 512 finds 512 populated buckets and resizes before inserting. -/
def c4_pages : List Nat :=
  [1024, 3072] ++ (List.range 510).map (· + 1) ++ [511, 512]

/-- The revision index after the C4 insert sequence (page size 512; the
physical addresses are arbitrary distinct values). -/
def c4_index : Option H5FD__onion_revision_index :=
  revisionIndexInsertAll (H5FD_onion_revision_index_init 512)
    (c4_pages.map (fun p => ⟨p, 4096 + p⟩))

/-- All inserts succeeded, the table doubled to 2048 buckets, and bucket 0
now holds the entry for page 3072 — whose key `3072 & 2047 = 1024` is not
0. -/
def c4_check : Bool :=
  match c4_index with
  | none => false
  | some r =>
      decide (r.hash_table_size = 2048)
      && (bucket r.hash_table 0).any
          (fun e => e.logi_page == 3072
            && decide (e.logi_page % r.hash_table_size ≠ 0))

set_option maxRecDepth 4000 in
/-- C4: the claim says that after any sequence of successful inserts —
table doublings included — every entry resides in the bucket selected by
`logi_page & (table_size - 1)`.  It does not: the resize loop's collision
branch prepends the node to `new_table[i]` (the old bucket index) instead
of `new_table[key]`, so after the doubling triggered by the C4 insert
sequence the entry for page 3072 sits in bucket 0 although its key is
1024 (and `H5FD_onion_revision_index_find` can no longer see it). -/
theorem C4_resize_misplaces_entries : c4_check = true := by decide

/-- Run a sequence of one-byte writes at the given offsets (scenario
driver). -/
def writeAllBytes :
    Option H5FD_onion_t → List Nat → Option H5FD_onion_t
  | none, _ => none
  | some s, [] => some s
  | some s, o :: os => writeAllBytes (H5FD__onion_write s o [65]) os

/-- The C9 session: create-truncate a fresh onion file with
`page_size = 1` (every one-byte write is page-granular), expose 8192
addressable bytes, and write the 514 offsets of the C4 page schedule —
the 514th write's insert doubles the table and misplaces the entry for
page 3072. -/
def c9_session : Option H5FD_onion_t :=
  match (H5FD__onion_open (mkFapl 1 REVISION_ID_LATEST) openFlagsCT
      freshBackend).1 with
  | .ok f => writeAllBytes (some (H5FD__onion_set_eoa f 8192)) c4_pages
  | .error _ => none

/-- After the session, page 3072 is still present in the revision index
(in bucket 0); yet one more write to it misses the index and allocates a
fresh slot: `history_eof` advances by `page_size` (= 1) and a second chain
node for page 3072 appears in bucket 1024. -/
def c9_check : Bool :=
  match c9_session with
  | none => false
  | some a =>
      (match a.rev_index with
        | some r => (bucket r.hash_table 0).any (fun e => e.logi_page == 3072)
        | none => false)
      && (match H5FD__onion_write a 3072 [66] with
          | none => false
          | some b =>
              decide (b.history_eof = a.history_eof + 1)
              && (match b.rev_index with
                  | some r2 =>
                      decide ((bucket r2.hash_table 0).countP
                            (fun e => e.logi_page == 3072)
                          + (bucket r2.hash_table 1024).countP
                            (fun e => e.logi_page == 3072) = 2)
                  | none => false))

set_option maxRecDepth 4000 in
/-- C9: the claim says a write to a page already present in the session's
revision index is rewritten in place — no new slot, `history_eof`
unchanged.  It does not hold: after the resize of the C9 session misplaces
the entry for page 3072 (see C4), rewriting that page misses the lookup,
allocates a fresh slot at `history_eof`, advances `history_eof` by
`page_size`, and appends a duplicate index entry for the page. -/
theorem C9_present_page_rewrite_allocates : c9_check = true := by decide

end Onion
